import Mathlib

/-!
Verification of the ASCII banner renderer in `src/ascii_generator.py`.

The renderer is embedded shallowly: Python strings are modelled as `List Char`,
the glyph dictionary as an association list, the mutable list of accumulator
rows as a `List (List Char)` threaded through folds, and the `ValueError`
raised for an invalid scale as the `Except.error` branch of the result.
-/

namespace AsciiGen

/-- Static 5x7 glyph table, translated entry for entry from `FONT_5x7` in
`src/ascii_generator.py`.  Each bitmap row is the list of characters of the
corresponding row string (a string of five `'0'`/`'1'` cells). -/
def FONT_5x7 : List (Char × List (List Char)) := [
  ('A', ["01110","10001","10001","11111","10001","10001","10001"].map String.toList),
  ('B', ["11110","10001","10001","11110","10001","10001","11110"].map String.toList),
  ('C', ["01111","10000","10000","10000","10000","10000","01111"].map String.toList),
  ('D', ["11110","10001","10001","10001","10001","10001","11110"].map String.toList),
  ('E', ["11111","10000","10000","11110","10000","10000","11111"].map String.toList),
  ('F', ["11111","10000","10000","11110","10000","10000","00000"].map String.toList),
  ('G', ["01111","10000","10000","10011","10001","10001","01110"].map String.toList),
  ('H', ["10001","10001","10001","11111","10001","10001","10001"].map String.toList),
  ('I', ["01110","00100","00100","00100","00100","00100","01110"].map String.toList),
  ('J', ["00111","00010","00010","00010","10010","10010","01100"].map String.toList),
  ('K', ["10001","10010","10100","11000","10100","10010","10001"].map String.toList),
  ('L', ["10000","10000","10000","10000","10000","10000","11111"].map String.toList),
  ('M', ["10001","11011","10101","10101","10001","10001","10001"].map String.toList),
  ('N', ["10001","11001","10101","10011","10001","10001","10001"].map String.toList),
  ('O', ["01110","10001","10001","10001","10001","10001","01110"].map String.toList),
  ('P', ["11110","10001","10001","11110","10000","10000","00000"].map String.toList),
  ('Q', ["01110","10001","10001","10001","10101","10010","01101"].map String.toList),
  ('R', ["11110","10001","10001","11110","10100","10010","10001"].map String.toList),
  ('S', ["01111","10000","10000","01110","00001","00001","11110"].map String.toList),
  ('T', ["11111","00100","00100","00100","00100","00100","00100"].map String.toList),
  ('U', ["10001","10001","10001","10001","10001","10001","01110"].map String.toList),
  ('V', ["10001","10001","10001","10001","10001","01010","00100"].map String.toList),
  ('W', ["10001","10001","10001","10101","10101","11011","10001"].map String.toList),
  ('X', ["10001","10001","01010","00100","01010","10001","10001"].map String.toList),
  ('Y', ["10001","10001","01010","00100","00100","00100","00100"].map String.toList),
  ('Z', ["11111","00001","00010","00100","01000","10000","11111"].map String.toList),
  ('0', ["01110","10001","10011","10101","11001","10001","01110"].map String.toList),
  ('1', ["00100","01100","00100","00100","00100","00100","01110"].map String.toList),
  ('2', ["01110","10001","00001","00010","00100","01000","11111"].map String.toList),
  ('3', ["01110","10001","00001","00110","00001","10001","01110"].map String.toList),
  ('4', ["00010","00110","01010","10010","11111","00010","00010"].map String.toList),
  ('5', ["11111","10000","10000","11110","00001","10001","01110"].map String.toList),
  ('6', ["00110","01000","10000","11110","10001","10001","01110"].map String.toList),
  ('7', ["11111","00001","00010","00100","01000","01000","01000"].map String.toList),
  ('8', ["01110","10001","10001","01110","10001","10001","01110"].map String.toList),
  ('9', ["01110","10001","10001","01111","00001","00010","01100"].map String.toList),
  (' ', ["00000","00000","00000","00000","00000","00000","00000"].map String.toList),
  ('.', ["00000","00000","00000","00000","00000","01100","01100"].map String.toList),
  (',', ["00000","00000","00000","00000","00000","01100","01000"].map String.toList),
  ('!', ["00100","00100","00100","00100","00100","00000","00100"].map String.toList),
  ('?', ["01110","10001","00001","00010","00100","00000","00100"].map String.toList),
  ('-', ["00000","00000","00000","11111","00000","00000","00000"].map String.toList),
  ('\'', ["00100","00100","00000","00000","00000","00000","00000"].map String.toList),
  (':', ["00000","01100","01100","00000","01100","01100","00000"].map String.toList)]

/-- Placeholder bitmap built for unknown characters: `bitmap = ["00000"] * 7`
followed by `bitmap[3] = "00100"` (lines 88-89 of the source). -/
def fallbackBitmap : List (List Char) :=
  (List.replicate 7 "00000".toList).set 3 "00100".toList

/-- Glyph chosen for an input character: `FONT_5x7.get(ch.upper())` with the
unknown-character fallback (lines 84-89 of the source).  `Char.toUpper` is the
ASCII case fold; Python's `ch.upper()` agrees with it on ASCII characters, and
a character whose Python fold expands to several characters (see `pyUpper`
below, e.g. `'ß'` with fold `"SS"`) misses the table under either key and so
gets the fallback either way.  The non-ASCII characters `'ı'` and `'ſ'`, whose
Python folds are the table keys `I` and `S`, are the known divergence of this
model: the program draws their glyphs while the model yields the fallback. -/
def glyphFor (ch : Char) : List (List Char) :=
  match FONT_5x7.lookup ch.toUpper with
  | some bitmap => bitmap
  | none => fallbackBitmap

/-- Expansion of one bitmap row: the inner loop `out_row += (draw * scale) if
bit == "1" else (" " * scale)` (lines 91-93 of the source).  `draw * scale` is
the draw string repeated `scale` times. -/
def expandRow (draw : List Char) (scale : Nat) (pat : List Char) : List Char :=
  pat.foldl
    (fun acc bit =>
      acc ++ (if bit = '1' then (List.replicate scale draw).flatten
              else List.replicate scale ' '))
    []

/-- Accumulator row at index `i` (`rows[i]`; the index is always in range
where this is used). -/
def getRow (rows : List (List Char)) (i : Nat) : List Char :=
  (rows[i]?).getD []

/-- In-place append to one accumulator row: `rows[i] += suffix`. -/
def appendAt (rows : List (List Char)) (i : Nat) (suffix : List Char) :
    List (List Char) :=
  rows.set i (getRow rows i ++ suffix)

/-- Inner replication loop `for v in range(scale): rows[r_i * scale + v] +=
out_row + sep` (lines 94-95 of the source). -/
def addGlyphRow (scale : Nat) (sep out : List Char) (r : Nat)
    (rows : List (List Char)) : List (List Char) :=
  (List.range scale).foldl (fun rws v => appendAt rws (r * scale + v) (out ++ sep)) rows

/-- Loop `for r_i, row_pattern in enumerate(bitmap)` (lines 90-95 of the
source), with the running row index `r` made explicit. -/
def addGlyphAux (draw : List Char) (scale : Nat) (sep : List Char) :
    Nat → List (List Char) → List (List Char) → List (List Char)
  | _, rows, [] => rows
  | r, rows, pat :: rest =>
      addGlyphAux draw scale sep (r + 1)
        (addGlyphRow scale sep (expandRow draw scale pat) r rows) rest

/-- Contribution of one glyph to the accumulator rows. -/
def addGlyph (draw : List Char) (scale : Nat) (sep : List Char)
    (rows : List (List Char)) (bitmap : List (List Char)) : List (List Char) :=
  addGlyphAux draw scale sep 0 rows bitmap

/-- Accumulator rows after the main loop `for ch in text` (lines 81-95 of the
source): `rows` starts as `[""] * (7 * scale)` and each character's glyph is
appended in turn. -/
def renderRows (text draw : List Char) (scale : Nat) (sep : List Char) :
    List (List Char) :=
  text.foldl (fun rows ch => addGlyph draw scale sep rows (glyphFor ch))
    (List.replicate (7 * scale) [])

/-- ASCII whitespace stripped by Python's `str.rstrip()`.  Python also strips
non-ASCII Unicode whitespace (e.g. U+00A0); the rows built here consist of
draw-string characters and ASCII spaces, so the ASCII subset is exact unless
the draw string itself contains non-ASCII whitespace. -/
def isPySpace (c : Char) : Bool :=
  c = ' ' || c = '\t' || c = '\n' || c = '\r' || c = '\x0b' || c = '\x0c'

/-- Right trim, Python's `r.rstrip()` (line 96 of the source). -/
def rstrip (l : List Char) : List Char :=
  (l.reverse.dropWhile isPySpace).reverse

/-- Final assembly `"\n".join(...) + "\n"` (line 96 of the source). -/
def joinRows (rs : List (List Char)) : List Char :=
  List.intercalate ['\n'] rs ++ ['\n']

/-- The renderer `render_text(text, draw, scale, spacing)` (lines 78-97 of the
source).  `scale` and `spacing` are Python ints, so they are modelled as `Int`;
`" " * spacing` is empty for non-positive `spacing`, hence
`List.replicate spacing.toNat ' '`.  The `ValueError` raised for `scale < 1`
becomes the `Except.error` branch. -/
def render_text (text draw : List Char) (scale spacing : Int) :
    Except String (List Char) :=
  if scale < 1 then Except.error "scale must be >= 1"
  else
    Except.ok (joinRows
      ((renderRows text draw scale.toNat (List.replicate spacing.toNat ' ')).map rstrip))

/-- Python's built-in single-character `str.upper()` (the source computes
`key = ch.upper()` on line 84): the full Unicode uppercase mapping of one
character, which may be several characters long: `'ß'.upper() == "SS"`,
`'ı'.upper() == "I"`, `'ſ'.upper() == "S"`.  Beyond these special cases the
model applies the ASCII fold, which agrees with Python on all ASCII
characters; the statements below instantiate this function only at characters
on which it agrees with Python. -/
def pyUpper (c : Char) : List Char :=
  if c = 'ß' then ['S', 'S']
  else if c = 'ı' then ['I']
  else if c = 'ſ' then ['S']
  else [c.toUpper]

/-- Python's `str.upper()` on a whole string: the per-character uppercase
mappings, concatenated. -/
def pyUpperString (text : List Char) : List Char :=
  (text.map pyUpper).flatten

/-! ### Basic lemmas about the accumulator operations -/

lemma length_appendAt (rows : List (List Char)) (i : Nat) (s : List Char) :
    (appendAt rows i s).length = rows.length := by
  simp [appendAt]

lemma getElem?_appendAt (rows : List (List Char)) (i : Nat) (s : List Char) (j : Nat) :
    (appendAt rows i s)[j]? =
      if i = j ∧ i < rows.length then some (getRow rows i ++ s) else rows[j]? := by
  unfold appendAt
  rw [List.getElem?_set]
  by_cases h : i = j
  · subst h
    by_cases h2 : i < rows.length
    · simp [h2]
    · have : rows[i]? = none := List.getElem?_eq_none_iff.mpr (by omega)
      simp [h2, this]
  · simp [h]

lemma length_foldRange (suffix : List Char) (base n : Nat) (rows : List (List Char)) :
    ((List.range n).foldl (fun rws v => appendAt rws (base + v) suffix) rows).length
      = rows.length := by
  induction n with
  | zero => simp
  | succ n ih =>
      rw [List.range_succ, List.foldl_append]
      simp [length_appendAt, ih]

lemma getElem?_foldRange (suffix : List Char) (base : Nat) (n : Nat)
    (rows : List (List Char)) (j : Nat) (hj : j < rows.length) :
    ((List.range n).foldl (fun rws v => appendAt rws (base + v) suffix) rows)[j]? =
      if base ≤ j ∧ j < base + n then some (getRow rows j ++ suffix) else rows[j]? := by
  induction n with
  | zero =>
      rw [List.range_zero, List.foldl_nil, if_neg]
      omega
  | succ n ih =>
      rw [List.range_succ, List.foldl_append, List.foldl_cons, List.foldl_nil,
        getElem?_appendAt]
      have hlen := length_foldRange suffix base n rows
      by_cases hj2 : base + n = j
      · have h1 : ((List.range n).foldl (fun rws v => appendAt rws (base + v) suffix) rows)[j]?
            = rows[j]? := by
          rw [ih, if_neg]
          omega
        have h2 : getRow ((List.range n).foldl (fun rws v => appendAt rws (base + v) suffix) rows)
            (base + n) = getRow rows j := by
          rw [getRow, hj2, h1, getRow]
        rw [if_pos ⟨hj2, by omega⟩, h2, if_pos (by omega)]
      · rw [if_neg (by tauto), ih]
        by_cases h3 : base ≤ j ∧ j < base + n
        · rw [if_pos h3, if_pos (by omega)]
        · rw [if_neg h3, if_neg (by omega)]

lemma length_addGlyphRow (scale : Nat) (sep out : List Char) (r : Nat)
    (rows : List (List Char)) :
    (addGlyphRow scale sep out r rows).length = rows.length :=
  length_foldRange (out ++ sep) (r * scale) scale rows

lemma getElem?_addGlyphRow (scale : Nat) (sep out : List Char) (r : Nat)
    (rows : List (List Char)) (j : Nat) (hj : j < rows.length) :
    (addGlyphRow scale sep out r rows)[j]? =
      if r * scale ≤ j ∧ j < r * scale + scale then some (getRow rows j ++ (out ++ sep))
      else rows[j]? :=
  getElem?_foldRange (out ++ sep) (r * scale) scale rows j hj

lemma length_addGlyphAux (draw : List Char) (scale : Nat) (sep : List Char) :
    ∀ (pats : List (List Char)) (r : Nat) (rows : List (List Char)),
      (addGlyphAux draw scale sep r rows pats).length = rows.length := by
  intro pats
  induction pats with
  | nil => intro r rows; rfl
  | cons pat rest ih =>
      intro r rows
      rw [addGlyphAux, ih, length_addGlyphRow]

lemma getElem?_addGlyphAux (draw : List Char) (scale : Nat) (sep : List Char)
    (hs : 1 ≤ scale) :
    ∀ (pats : List (List Char)) (r0 : Nat) (rows : List (List Char)) (j : Nat),
      j < rows.length →
      (addGlyphAux draw scale sep r0 rows pats)[j]? =
        if r0 * scale ≤ j ∧ j < (r0 + pats.length) * scale then
          some (getRow rows j ++ (expandRow draw scale (pats.getD (j / scale - r0) []) ++ sep))
        else rows[j]? := by
  intro pats
  induction pats with
  | nil =>
      intro r0 rows j hj
      rw [addGlyphAux, if_neg]
      simp only [List.length_nil, Nat.add_zero]
      omega
  | cons pat rest ih =>
      intro r0 rows j hj
      rw [addGlyphAux]
      have hlen : (addGlyphRow scale sep (expandRow draw scale pat) r0 rows).length
          = rows.length := length_addGlyphRow ..
      rw [ih (r0 + 1) _ j (by omega)]
      have hrow := getElem?_addGlyphRow scale sep (expandRow draw scale pat) r0 rows j hj
      have hmul1 : (r0 + 1) * scale = r0 * scale + scale := by ring
      have hmul2 : (r0 + 1 + rest.length) * scale = r0 * scale + scale + rest.length * scale := by
        ring
      have hmul3 : (r0 + (rest.length + 1)) * scale = r0 * scale + scale + rest.length * scale := by
        ring
      have hmul4 : (r0 + (pat :: rest).length) * scale
          = r0 * scale + scale + rest.length * scale := by
        simp only [List.length_cons]
        ring
      by_cases hA : (r0 + 1) * scale ≤ j ∧ j < (r0 + 1 + rest.length) * scale
      · rw [if_pos hA]
        have hdiv : r0 + 1 ≤ j / scale :=
          (Nat.le_div_iff_mul_le (by omega)).mpr (by omega)
        have hidx : j / scale - r0 = (j / scale - (r0 + 1)) + 1 := by omega
        have hget : (pat :: rest).getD (j / scale - r0) [] = rest.getD (j / scale - (r0 + 1)) [] := by
          rw [hidx, List.getD_cons_succ]
        have hrow2 : getRow (addGlyphRow scale sep (expandRow draw scale pat) r0 rows) j
            = getRow rows j := by
          rw [getRow, hrow, if_neg (by omega), getRow]
        rw [hrow2, if_pos (by omega), hget]
      · rw [if_neg hA, hrow]
        by_cases hB : r0 * scale ≤ j ∧ j < r0 * scale + scale
        · have hdiv : j / scale = r0 :=
            Nat.div_eq_of_lt_le (by omega) (by omega)
          rw [if_pos hB, if_pos (by omega), hdiv, Nat.sub_self, List.getD_cons_zero]
        · rw [if_neg hB, if_neg (by omega)]

/-! ### Glyph table facts -/

lemma mem_of_lookup_eq_some {k : Char} {v : List (List Char)}
    {l : List (Char × List (List Char))} (h : l.lookup k = some v) : (k, v) ∈ l := by
  induction l with
  | nil => simp [List.lookup] at h
  | cons e t ih =>
      obtain ⟨a, b⟩ := e
      rw [List.lookup] at h
      cases hba : k == a with
      | true =>
          rw [hba] at h
          obtain rfl : b = v := by simpa using h
          obtain rfl : k = a := by simpa using hba
          exact List.mem_cons_self ..
      | false =>
          rw [hba] at h
          exact List.mem_cons_of_mem _ (ih h)

lemma font_shape : ∀ e ∈ FONT_5x7, e.2.length = 7 ∧ ∀ row ∈ e.2, row.length = 5 := by
  decide

lemma fallbackBitmap_shape :
    fallbackBitmap.length = 7 ∧ ∀ row ∈ fallbackBitmap, row.length = 5 := by
  decide

lemma glyphFor_length (ch : Char) : (glyphFor ch).length = 7 := by
  unfold glyphFor
  cases h : FONT_5x7.lookup ch.toUpper with
  | none => exact fallbackBitmap_shape.1
  | some bitmap => exact (font_shape _ (mem_of_lookup_eq_some h)).1

lemma glyphFor_rows_length (ch : Char) : ∀ row ∈ glyphFor ch, row.length = 5 := by
  unfold glyphFor
  cases h : FONT_5x7.lookup ch.toUpper with
  | none => exact fallbackBitmap_shape.2
  | some bitmap => exact (font_shape _ (mem_of_lookup_eq_some h)).2

/-! ### Characterization of the accumulator rows -/

lemma foldl_append_eq_flatten_map {α β : Type} (f : α → List β) :
    ∀ (l : List α) (acc : List β),
      l.foldl (fun a x => a ++ f x) acc = acc ++ (l.map f).flatten := by
  intro l
  induction l with
  | nil => intro acc; simp
  | cons x t ih => intro acc; simp [ih]

lemma expandRow_eq (draw : List Char) (scale : Nat) (pat : List Char) :
    expandRow draw scale pat =
      (pat.map fun bit =>
        if bit = '1' then (List.replicate scale draw).flatten
        else List.replicate scale ' ').flatten := by
  rw [expandRow, foldl_append_eq_flatten_map]
  simp

lemma length_foldGlyphs (draw : List Char) (scale : Nat) (sep : List Char) :
    ∀ (text : List Char) (rows : List (List Char)),
      (text.foldl (fun rws ch => addGlyph draw scale sep rws (glyphFor ch)) rows).length
        = rows.length := by
  intro text
  induction text with
  | nil => intro rows; rfl
  | cons ch t ih =>
      intro rows
      rw [List.foldl_cons, ih, addGlyph, length_addGlyphAux]

lemma renderRows_length (text draw : List Char) (scale : Nat) (sep : List Char) :
    (renderRows text draw scale sep).length = 7 * scale := by
  rw [renderRows, length_foldGlyphs, List.length_replicate]

lemma index_lt (scale r v : Nat) (hr : r < 7) (hv : v < scale) :
    r * scale + v < 7 * scale := by
  have h1 : (r + 1) * scale ≤ 7 * scale := Nat.mul_le_mul_right scale (by omega)
  have h2 : (r + 1) * scale = r * scale + scale := by ring
  omega

lemma div_of_index (scale r v : Nat) (hs : 1 ≤ scale) (hv : v < scale) :
    (r * scale + v) / scale = r := by
  rw [Nat.mul_comm r scale, Nat.mul_add_div (by omega)]
  rw [Nat.div_eq_of_lt hv, Nat.add_zero]

lemma foldGlyphs_getElem? (draw : List Char) (scale : Nat) (sep : List Char)
    (hs : 1 ≤ scale) (r v : Nat) (hr : r < 7) (hv : v < scale) :
    ∀ (text : List Char) (rows : List (List Char)), rows.length = 7 * scale →
      (text.foldl (fun rws ch => addGlyph draw scale sep rws (glyphFor ch))
          rows)[r * scale + v]? =
        some (getRow rows (r * scale + v) ++
          (text.map fun ch => expandRow draw scale ((glyphFor ch).getD r []) ++ sep).flatten) := by
  intro text
  induction text with
  | nil =>
      intro rows hlen
      have hidx : r * scale + v < rows.length := by
        rw [hlen]; exact index_lt scale r v hr hv
      rw [List.foldl_nil, List.map_nil, List.flatten_nil, List.append_nil, getRow,
        List.getElem?_eq_getElem hidx]
      simp
  | cons ch t ih =>
      intro rows hlen
      rw [List.foldl_cons]
      have hlen2 : (addGlyph draw scale sep rows (glyphFor ch)).length = 7 * scale := by
        rw [addGlyph, length_addGlyphAux, hlen]
      rw [ih _ hlen2]
      have hidx : r * scale + v < rows.length := by
        rw [hlen]; exact index_lt scale r v hr hv
      have hget := getElem?_addGlyphAux draw scale sep hs (glyphFor ch) 0 rows
        (r * scale + v) hidx
      rw [Nat.zero_mul, Nat.zero_add, glyphFor_length, Nat.sub_zero,
        div_of_index scale r v hs hv] at hget
      have hcond : 0 ≤ r * scale + v ∧ r * scale + v < 7 * scale :=
        ⟨Nat.zero_le _, index_lt scale r v hr hv⟩
      rw [if_pos hcond] at hget
      have hrow : getRow (addGlyph draw scale sep rows (glyphFor ch)) (r * scale + v)
          = getRow rows (r * scale + v) ++
              (expandRow draw scale ((glyphFor ch).getD r []) ++ sep) := by
        rw [getRow, addGlyph, hget]
        rfl
      rw [hrow, List.map_cons, List.flatten_cons, List.append_assoc]

lemma renderRows_getElem? (text draw : List Char) (scale : Nat) (sep : List Char)
    (hs : 1 ≤ scale) (r v : Nat) (hr : r < 7) (hv : v < scale) :
    (renderRows text draw scale sep)[r * scale + v]? =
      some ((text.map fun ch =>
        expandRow draw scale ((glyphFor ch).getD r []) ++ sep).flatten) := by
  rw [renderRows, foldGlyphs_getElem? draw scale sep hs r v hr hv text
    (List.replicate (7 * scale) []) (List.length_replicate ..)]
  have hrow : getRow (List.replicate (7 * scale) ([] : List Char)) (r * scale + v) = [] := by
    rw [getRow, List.getElem?_replicate, if_pos (index_lt scale r v hr hv)]
    rfl
  rw [hrow, List.nil_append]

/-! ### Trimming, joining, and case folding -/

lemma dropWhile_dropWhile (p : Char → Bool) (l : List Char) :
    List.dropWhile p (List.dropWhile p l) = List.dropWhile p l := by
  induction l with
  | nil => rfl
  | cons x t ih =>
      by_cases h : p x
      · rw [List.dropWhile_cons_of_pos h, ih]
      · rw [List.dropWhile_cons_of_neg h, List.dropWhile_cons_of_neg h]

lemma rstrip_idem (l : List Char) : rstrip (rstrip l) = rstrip l := by
  unfold rstrip
  rw [List.reverse_reverse, dropWhile_dropWhile]

lemma rstrip_nil : rstrip [] = [] := rfl

lemma intercalate_newline_blank :
    ∀ n : Nat, List.intercalate ['\n'] (List.replicate (n + 1) ([] : List Char))
      = List.replicate n '\n' := by
  intro n
  induction n with
  | zero => rfl
  | succ n ih =>
      have h2 : List.replicate (n + 2) ([] : List Char)
          = [] :: [] :: List.replicate n [] := rfl
      rw [h2, List.intercalate, List.intersperse_cons₂, List.flatten_cons, List.flatten_cons,
        List.nil_append]
      have h3 : (List.intersperse ['\n'] ([] :: List.replicate n ([] : List Char))).flatten
          = List.intercalate ['\n'] (List.replicate (n + 1) ([] : List Char)) := rfl
      rw [h3, ih]
      rfl

lemma char_toNat_ofNat {n : Nat} (h : n.isValidChar) : (Char.ofNat n).toNat = n := by
  simp only [Char.ofNat, h, dif_pos, Char.ofNatAux, Char.toNat]
  rfl

lemma toUpper_def (c : Char) :
    c.toUpper = if c.toNat ≥ 97 ∧ c.toNat ≤ 122 then Char.ofNat (c.toNat - 32) else c := rfl

lemma toUpper_idem (c : Char) : c.toUpper.toUpper = c.toUpper := by
  by_cases h : c.toNat ≥ 97 ∧ c.toNat ≤ 122
  · have hval : (c.toNat - 32).isValidChar := by
      left
      omega
    rw [toUpper_def c, if_pos h, toUpper_def, char_toNat_ofNat hval, if_neg (by omega)]
  · rw [toUpper_def c, if_neg h, toUpper_def c, if_neg h]

lemma glyphFor_toUpper (c : Char) : glyphFor c.toUpper = glyphFor c := by
  unfold glyphFor
  rw [toUpper_idem]

lemma flatten_map_singleton {α β : Type} (f : α → β) (l : List α) :
    (l.map fun x => [f x]).flatten = l.map f := by
  induction l with
  | nil => rfl
  | cons x t ih => simp [ih]

lemma expandRow_one_hash (pat : List Char) :
    expandRow ['#'] 1 pat = pat.map fun bit => if bit = '1' then '#' else ' ' := by
  rw [expandRow_eq]
  have hfun : (fun bit => if bit = '1' then (List.replicate 1 ['#']).flatten
      else List.replicate 1 ' ')
      = fun bit : Char => [if bit = '1' then '#' else ' '] := by
    funext bit
    by_cases hb : bit = '1' <;> simp [hb]
  rw [hfun, flatten_map_singleton]

/-! ### The claims -/

/-- C1: for every input text, draw symbol, spacing, and scale >= 1, each of the
`scale` accumulator rows with index `r * scale + v` (bitmap row `r < 7`, copy
`v < scale`) is the concatenation, in text order, of one block per character:
the character's bitmap row `r` expanded bit by bit (a set bit contributes the
draw symbol repeated `scale` times, an unset bit contributes `scale` spaces,
the blocks concatenated in column order) followed by a separator of `spacing`
blank characters. -/
theorem C1_row_construction (text draw : List Char) (scale spacing : Nat)
    (hs : 1 ≤ scale) (r v : Nat) (hr : r < 7) (hv : v < scale) :
    (renderRows text draw scale (List.replicate spacing ' '))[r * scale + v]? =
      some ((text.map fun ch =>
        (((glyphFor ch).getD r []).map fun bit =>
          if bit = '1' then (List.replicate scale draw).flatten
          else List.replicate scale ' ').flatten
        ++ List.replicate spacing ' ').flatten) := by
  rw [renderRows_getElem? text draw scale _ hs r v hr hv]
  congr 1
  congr 1
  apply List.map_congr_left
  intro ch _
  rw [expandRow_eq]

/-- C1 witness: the characterization evaluated at text `"A"`, draw `"#"`,
scale `1`, spacing `2`, bitmap row `3`, copy `0`. -/
theorem C1_row_construction_witness :
    1 ≤ 1 ∧ 3 < 7 ∧ 0 < 1 ∧
    (renderRows ['A'] ['#'] 1 (List.replicate 2 ' '))[3 * 1 + 0]? =
      some (([ 'A' ].map fun ch =>
        (((glyphFor ch).getD 3 []).map fun bit =>
          if bit = '1' then (List.replicate 1 ['#']).flatten
          else List.replicate 1 ' ').flatten
        ++ List.replicate 2 ' ').flatten) :=
  ⟨by decide, by decide, by decide,
    C1_row_construction ['A'] ['#'] 1 2 (by decide) 3 0 (by decide) (by decide)⟩

/-- C2: for every text, draw symbol, spacing, and scale >= 1, the rendered
output is exactly `7 * scale` rows, each already right-trimmed (so re-trimming
is a no-op), joined by single line breaks with one trailing line break. -/
theorem C2_output_shape (text draw : List Char) (scale spacing : Int)
    (hs : 1 ≤ scale) :
    ∃ rows : List (List Char),
      render_text text draw scale spacing
        = Except.ok (List.intercalate ['\n'] rows ++ ['\n']) ∧
      rows.length = 7 * scale.toNat ∧
      ∀ row ∈ rows, rstrip row = row := by
  refine ⟨(renderRows text draw scale.toNat
    (List.replicate spacing.toNat ' ')).map rstrip, ?_, ?_, ?_⟩
  · simp only [render_text, if_neg (show ¬scale < 1 by omega)]
    rfl
  · rw [List.length_map, renderRows_length]
  · intro row hrow
    obtain ⟨row0, _, rfl⟩ := List.mem_map.mp hrow
    exact rstrip_idem row0

/-- C2 witness: the output shape at text `"HI"`, draw `"#"`, scale `2`,
spacing `1`. -/
theorem C2_output_shape_witness :
    (1 : Int) ≤ 2 ∧
    ∃ rows : List (List Char),
      render_text ['H', 'I'] ['#'] 2 1
        = Except.ok (List.intercalate ['\n'] rows ++ ['\n']) ∧
      rows.length = 7 * (2 : Int).toNat ∧
      ∀ row ∈ rows, rstrip row = row :=
  ⟨by decide, C2_output_shape ['H', 'I'] ['#'] 2 1 (by decide)⟩

/-- C3: `render_text` fails, with exactly the message of the `ValueError`
raised for an invalid scale, precisely when `scale < 1`; for `scale ≥ 1` it
always succeeds (no clamping). -/
theorem C3_scale_check (text draw : List Char) (scale spacing : Int) :
    (scale < 1 ∧ render_text text draw scale spacing
      = Except.error "scale must be >= 1")
    ∨ (1 ≤ scale ∧ ∃ out, render_text text draw scale spacing = Except.ok out) := by
  by_cases h : scale < 1
  · exact Or.inl ⟨h, by rw [render_text, if_pos h]⟩
  · exact Or.inr ⟨by omega, _, by rw [render_text, if_neg h]⟩

/-- Uppercasing the input text character by character with the ASCII fold
does not change the output, for every scale and spacing. -/
lemma render_text_map_toUpper (text draw : List Char) (scale spacing : Int) :
    render_text (text.map Char.toUpper) draw scale spacing
      = render_text text draw scale spacing := by
  have hrows : ∀ (s : Nat) (sep : List Char),
      renderRows (text.map Char.toUpper) draw s sep = renderRows text draw s sep := by
    intro s sep
    rw [renderRows, renderRows, List.foldl_map]
    have hfun : (fun (rows : List (List Char)) (ch : Char) =>
        addGlyph draw s sep rows (glyphFor ch.toUpper))
        = fun rows ch => addGlyph draw s sep rows (glyphFor ch) := by
      funext rows ch
      rw [glyphFor_toUpper]
    rw [hfun]
  by_cases h : scale < 1
  · rw [render_text, if_pos h, render_text, if_pos h]
  · rw [render_text, if_neg h, render_text, if_neg h, hrows]

/-- C5 counterexample: the uppercase fold of the text `"ß"` is `"SS"`
(Python's `'ß'.upper() == "SS"`), and the program renders `"ß"` as a single
fallback glyph — the folded key `"SS"` is not a table key — while it renders
the fold `"SS"` as two `S` glyphs, so the two outputs differ. -/
theorem C5_counterexample :
    pyUpperString ['ß'] = ['S', 'S'] ∧
    render_text ['ß'] ['#'] 1 1
      = Except.ok (joinRows ["".toList, "".toList, "".toList, "  #".toList,
        "".toList, "".toList, "".toList]) ∧
    render_text (pyUpperString ['ß']) ['#'] 1 1
      = Except.ok (joinRows [" ####  ####".toList, "#     #".toList,
        "#     #".toList, " ###   ###".toList, "    #     #".toList,
        "    #     #".toList, "####  ####".toList]) ∧
    render_text (pyUpperString ['ß']) ['#'] 1 1 ≠ render_text ['ß'] ['#'] 1 1 := by
  have h1 : render_text ['ß'] ['#'] 1 1
      = Except.ok (joinRows ["".toList, "".toList, "".toList, "  #".toList,
        "".toList, "".toList, "".toList]) := rfl
  have h2 : render_text (pyUpperString ['ß']) ['#'] 1 1
      = Except.ok (joinRows [" ####  ####".toList, "#     #".toList,
        "#     #".toList, " ###   ###".toList, "    #     #".toList,
        "    #     #".toList, "####  ####".toList]) := rfl
  refine ⟨by decide, h1, h2, ?_⟩
  intro hEq
  rw [h1, h2] at hEq
  exact absurd (Except.ok.inj hEq) (by decide)

/-- C5 amended: rendering is case-insensitive on ASCII text: for every text of
ASCII characters and every draw symbol, scale, and spacing, rendering the text
and rendering its uppercase fold produce identical results.  (On general
Unicode text the fold of one character may expand to several characters, e.g.
`'ß'` to `"SS"`, and the two outputs then differ.) -/
theorem C5_amended_ascii (text draw : List Char) (scale spacing : Int)
    (h : ∀ c ∈ text, c.toNat < 128) :
    render_text (pyUpperString text) draw scale spacing
      = render_text text draw scale spacing := by
  have hfold : pyUpperString text = text.map Char.toUpper := by
    rw [pyUpperString]
    have hmap : text.map pyUpper = text.map fun c => [c.toUpper] := by
      apply List.map_congr_left
      intro c hc
      have hlt := h c hc
      have hb : c ≠ 'ß' := by
        intro hcc
        rw [hcc] at hlt
        exact absurd hlt (by decide)
      have hi : c ≠ 'ı' := by
        intro hcc
        rw [hcc] at hlt
        exact absurd hlt (by decide)
      have hl : c ≠ 'ſ' := by
        intro hcc
        rw [hcc] at hlt
        exact absurd hlt (by decide)
      rw [pyUpper, if_neg hb, if_neg hi, if_neg hl]
    rw [hmap, flatten_map_singleton]
  rw [hfold, render_text_map_toUpper]

/-- C5 amended witness: the ASCII text `"a"` and its fold `"A"` at draw `"#"`,
scale `1`, spacing `1`. -/
theorem C5_amended_ascii_witness :
    (∀ c ∈ ['a'], c.toNat < 128) ∧
    render_text (pyUpperString ['a']) ['#'] 1 1 = render_text ['a'] ['#'] 1 1 :=
  ⟨by decide, C5_amended_ascii ['a'] ['#'] 1 1 (by decide)⟩

/-- C4: a character whose uppercase fold has no glyph table entry never makes
`render_text` fail: it is drawn with the fallback bitmap, a blank 7x5 glyph
whose only set cell is row 3, column 2, and the output still has the full
`7 * scale` row count. -/
theorem C4_unknown_char_fallback (ch : Char) (h : FONT_5x7.lookup ch.toUpper = none)
    (draw : List Char) (scale spacing : Int) (hs : 1 ≤ scale) :
    glyphFor ch = fallbackBitmap ∧
    (∀ r < 7, ∀ cc < 5,
      ((glyphFor ch).getD r []).getD cc '0' = if r = 3 ∧ cc = 2 then '1' else '0') ∧
    (∃ out, render_text [ch] draw scale spacing = Except.ok out) ∧
    ((renderRows [ch] draw scale.toNat (List.replicate spacing.toNat ' ')).map
      rstrip).length = 7 * scale.toNat := by
  have hg : glyphFor ch = fallbackBitmap := by
    unfold glyphFor
    rw [h]
  refine ⟨hg, ?_, ⟨_, by rw [render_text, if_neg (show ¬scale < 1 by omega)]⟩, ?_⟩
  · rw [hg]
    decide
  · rw [List.length_map, renderRows_length]

/-- C4 witness: the unknown character `'@'` at draw `"#"`, scale `2`,
spacing `1`. -/
theorem C4_unknown_char_fallback_witness :
    FONT_5x7.lookup '@'.toUpper = none ∧ (1 : Int) ≤ 2 ∧
    (glyphFor '@' = fallbackBitmap ∧
     (∀ r < 7, ∀ cc < 5,
       ((glyphFor '@').getD r []).getD cc '0' = if r = 3 ∧ cc = 2 then '1' else '0') ∧
     (∃ out, render_text ['@'] ['#'] 2 1 = Except.ok out) ∧
     ((renderRows ['@'] ['#'] (2 : Int).toNat (List.replicate (1 : Int).toNat ' ')).map
       rstrip).length = 7 * (2 : Int).toNat) :=
  ⟨by decide, by decide,
    C4_unknown_char_fallback '@' (by decide) ['#'] 2 1 (by decide)⟩

/-- C6 counterexample: the claim demands that every output row of
`render("A", "#", 1, 0)` have length 5, but output rows are right-trimmed, so
the first rendered row of the supported character `'A'` is `" ###"`, of
length 4. -/
theorem C6_counterexample :
    (FONT_5x7.lookup 'A').isSome = true ∧
    render_text ['A'] ['#'] 1 0 = Except.ok (joinRows
      [" ###".toList, "#   #".toList, "#   #".toList, "#####".toList,
       "#   #".toList, "#   #".toList, "#   #".toList]) ∧
    (" ###".toList).length = 4 ∧
    ¬ (∀ row ∈ (renderRows ['A'] ['#'] 1 []).map rstrip, row.length = 5) := by
  exact ⟨by decide, by rfl, by decide, by decide⟩

/-- C6 amended: for a supported character the seven untrimmed accumulator rows
have length 5 and carry `'#'` exactly at the set bits of the bitmap (space
elsewhere); the rows actually output are these rows right-trimmed, so their
length is at most 5 rather than exactly 5. -/
theorem C6_amended_bitmap_match (c : Char)
    (h : (FONT_5x7.lookup c.toUpper).isSome = true) :
    (renderRows [c] ['#'] 1 []).length = 7 ∧
    (∀ r < 7, (getRow (renderRows [c] ['#'] 1 []) r).length = 5 ∧
      ∀ j < 5, (getRow (renderRows [c] ['#'] 1 []) r).getD j ' '
        = if ((glyphFor c).getD r []).getD j '0' = '1' then '#' else ' ') ∧
    render_text [c] ['#'] 1 0
      = Except.ok (joinRows ((renderRows [c] ['#'] 1 []).map rstrip)) := by
  refine ⟨by rw [renderRows_length], ?_, ?_⟩
  · intro r hr
    have hrow : getRow (renderRows [c] ['#'] 1 []) r
        = ((glyphFor c).getD r []).map fun bit => if bit = '1' then '#' else ' ' := by
      have h1 := renderRows_getElem? [c] ['#'] 1 [] (by decide) r 0 hr (by decide)
      have hidx : r * 1 + 0 = r := by omega
      rw [hidx] at h1
      rw [getRow, h1]
      simp [expandRow_one_hash]
    have hr7 : r < (glyphFor c).length := by
      rw [glyphFor_length]
      omega
    have hlen : ((glyphFor c).getD r []).length = 5 := by
      have hmem : (glyphFor c).getD r [] ∈ glyphFor c := by
        rw [List.getD_eq_getElem _ _ hr7]
        exact List.getElem_mem hr7
      exact glyphFor_rows_length c _ hmem
    constructor
    · rw [hrow, List.length_map, hlen]
    · intro j hj
      have hj5 : j < ((glyphFor c).getD r []).length := by omega
      rw [hrow, List.getD_eq_getElem _ _ (by rw [List.length_map]; omega),
        List.getElem_map, List.getD_eq_getElem _ _ hj5]
  · rw [render_text, if_neg (by norm_num)]
    rfl

/-- C6 amended witness: the amended statement evaluated at the supported
character `'A'`. -/
theorem C6_amended_bitmap_match_witness :
    (FONT_5x7.lookup 'A'.toUpper).isSome = true ∧
    ((renderRows ['A'] ['#'] 1 []).length = 7 ∧
     (∀ r < 7, (getRow (renderRows ['A'] ['#'] 1 []) r).length = 5 ∧
       ∀ j < 5, (getRow (renderRows ['A'] ['#'] 1 []) r).getD j ' '
         = if ((glyphFor 'A').getD r []).getD j '0' = '1' then '#' else ' ') ∧
     render_text ['A'] ['#'] 1 0
       = Except.ok (joinRows ((renderRows ['A'] ['#'] 1 []).map rstrip))) :=
  ⟨by decide, C6_amended_bitmap_match 'A' (by decide)⟩

/-- C7 counterexample: at scale `2`, spacing `1`, the untrimmed row between the
two `'A'` glyph blocks of text `"AA"` contains exactly one blank column
(position 10 blank, position 11 drawn), not `spacing * (scale + 1) = 3` blank
columns as the claim demands. -/
theorem C7_counterexample :
    getRow (renderRows ['A', 'A'] ['#'] 2 [' ']) 6
      = (List.replicate 10 '#' ++ [' ']) ++ (List.replicate 10 '#' ++ [' ']) ∧
    (getRow (renderRows ['A', 'A'] ['#'] 2 [' ']) 6).getD 10 '?' = ' ' ∧
    (getRow (renderRows ['A', 'A'] ['#'] 2 [' ']) 6).getD 11 '?' = '#' ∧
    1 * (2 + 1) ≠ 1 := by
  exact ⟨by decide, by decide, by decide, by decide⟩

/-- C7 amended: the separator inserted after each glyph is exactly `spacing`
space characters on every untrimmed row, independent of scale, so the blank
gap between two adjacent rendered glyphs is `spacing` characters wide. -/
theorem C7_amended_separator (c₁ c₂ : Char) (draw : List Char)
    (scale spacing : Nat) (hs : 1 ≤ scale) (r v : Nat) (hr : r < 7) (hv : v < scale) :
    getRow (renderRows [c₁, c₂] draw scale (List.replicate spacing ' ')) (r * scale + v)
      = (expandRow draw scale ((glyphFor c₁).getD r []) ++ List.replicate spacing ' ')
        ++ (expandRow draw scale ((glyphFor c₂).getD r []) ++ List.replicate spacing ' ') := by
  rw [getRow, renderRows_getElem? [c₁, c₂] draw scale _ hs r v hr hv]
  simp [List.append_assoc]

/-- C7 amended witness: the separator between the two `'A'` glyphs of `"AA"`
at draw `"#"`, scale `2`, spacing `1`, on untrimmed row `3 * 2 + 0`. -/
theorem C7_amended_separator_witness :
    1 ≤ 2 ∧ 3 < 7 ∧ 0 < 2 ∧
    getRow (renderRows ['A', 'A'] ['#'] 2 (List.replicate 1 ' ')) (3 * 2 + 0)
      = (expandRow ['#'] 2 ((glyphFor 'A').getD 3 []) ++ List.replicate 1 ' ')
        ++ (expandRow ['#'] 2 ((glyphFor 'A').getD 3 []) ++ List.replicate 1 ' ') :=
  ⟨by decide, by decide, by decide,
    C7_amended_separator 'A' 'A' ['#'] 2 1 (by decide) 3 0 (by decide) (by decide)⟩

/-- C8: rendering the empty text at any scale >= 1 returns exactly
`7 * scale` line breaks and nothing else. -/
theorem C8_empty_text (draw : List Char) (scale spacing : Int) (hs : 1 ≤ scale) :
    render_text [] draw scale spacing
      = Except.ok (List.replicate (7 * scale.toNat) '\n') := by
  rw [render_text, if_neg (show ¬scale < 1 by omega)]
  have h1 : renderRows [] draw scale.toNat (List.replicate spacing.toNat ' ')
      = List.replicate (7 * scale.toNat) [] := rfl
  rw [h1, List.map_replicate]
  have h2 : rstrip ([] : List Char) = [] := rfl
  rw [h2, joinRows]
  obtain ⟨m, hm⟩ : ∃ m, 7 * scale.toNat = m + 1 := ⟨7 * scale.toNat - 1, by omega⟩
  rw [hm, intercalate_newline_blank, ← List.replicate_succ']

/-- C8 witness: the empty text at scale `3`, spacing `1`, draw `"#"`. -/
theorem C8_empty_text_witness :
    (1 : Int) ≤ 3 ∧
    render_text [] ['#'] 3 1 = Except.ok (List.replicate (7 * (3 : Int).toNat) '\n') :=
  ⟨by decide, C8_empty_text ['#'] 3 1 (by decide)⟩

/-- C9: every glyph table entry is a 7-row bitmap whose rows have exactly 5
cells, each cell `'0'` or `'1'`; the fallback bitmap satisfies the same
invariant. -/
theorem C9_glyph_invariant :
    (∀ e ∈ FONT_5x7, e.2.length = 7 ∧ ∀ row ∈ e.2, row.length = 5 ∧
      ∀ cell ∈ row, cell = '0' ∨ cell = '1') ∧
    (fallbackBitmap.length = 7 ∧ ∀ row ∈ fallbackBitmap, row.length = 5 ∧
      ∀ cell ∈ row, cell = '0' ∨ cell = '1') := by
  decide

/-- C10: a negative spacing is not an error: the separator degenerates to the
empty string, and the output is the one produced with spacing `0`. -/
theorem C10_negative_spacing (text draw : List Char) (scale spacing : Int)
    (hs : 1 ≤ scale) (hneg : spacing < 0) :
    render_text text draw scale spacing = render_text text draw scale 0 ∧
    ∃ out, render_text text draw scale spacing = Except.ok out := by
  have h0 : spacing.toNat = 0 := by omega
  constructor
  · simp only [render_text, h0, Int.toNat_zero]
  · rw [render_text, if_neg (show ¬scale < 1 by omega)]
    exact ⟨_, rfl⟩

/-- C10 witness: spacing `-100` behaves like spacing `0` at text `"A"`,
draw `"#"`, scale `1`. -/
theorem C10_negative_spacing_witness :
    (1 : Int) ≤ 1 ∧ (-100 : Int) < 0 ∧
    (render_text ['A'] ['#'] 1 (-100) = render_text ['A'] ['#'] 1 0 ∧
      ∃ out, render_text ['A'] ['#'] 1 (-100) = Except.ok out) :=
  ⟨by decide, by decide, C10_negative_spacing ['A'] ['#'] 1 (-100) (by decide) (by decide)⟩

end AsciiGen
